import Mathlib

/-
  Verification of the DOTP chart-layout repair engine.

  Shallow embedding of:
  - docs/js/chartjs-fix.js : the wrapper around Chart.layouts.update that
    repairs non-finite scale dimensions and recomputes the chart area
    (spec components AxisFitter / GeometrySanitizer / BandPositioner).
  - the margin-sanitizing wrapper around Chart.layouts.update that
    intercepts each scale's update() call (spec section 4.3 margin policy).

  JavaScript numbers (and the non-number values null/undefined that flow
  through the same expressions) are modelled by the inductive type JVal;
  arithmetic follows IEEE rules on the extended rationals (NaN and the two
  infinities propagate as in JS; negative zero is identified with zero,
  which is sound here because the source only uses values through
  isFinite, truthiness, comparison and arithmetic, all of which identify
  0 and -0).
-/

namespace DOTP

/-- Model of a JavaScript value as it flows through the layout code:
a finite number (rational), NaN, the two infinities, null, or undefined. -/
inductive JVal where
  | num (q : ℚ)
  | nan
  | inf
  | ninf
  | null
  | undef
deriving DecidableEq, Repr

namespace JVal

/-- JS ToNumber coercion restricted to the values of the model:
null coerces to 0, undefined to NaN, numbers to themselves. -/
def toNumber : JVal → JVal
  | num q => num q
  | nan => nan
  | inf => inf
  | ninf => ninf
  | null => num 0
  | undef => nan

/-- JS truthiness: 0, NaN, null and undefined are falsy; every other
number (including the infinities) is truthy. -/
def truthy : JVal → Bool
  | num q => decide (q ≠ 0)
  | nan => false
  | inf => true
  | ninf => true
  | null => false
  | undef => false

end JVal

open JVal

/-- JS expression `a || b`. -/
def jOr (a b : JVal) : JVal := if truthy a then a else b

/-- JS global isFinite: coerces with ToNumber first, so isFinite(null)
is true (null coerces to 0) while isFinite(undefined) is false. -/
def jIsFinite (a : JVal) : Bool :=
  match toNumber a with
  | .num _ => true
  | _ => false

/-- JS addition on the model (after ToNumber coercion). -/
def jAdd (a b : JVal) : JVal :=
  match toNumber a, toNumber b with
  | .nan, _ => .nan
  | _, .nan => .nan
  | .num x, .num y => .num (x + y)
  | .inf, .ninf => .nan
  | .ninf, .inf => .nan
  | .inf, _ => .inf
  | _, .inf => .inf
  | .ninf, _ => .ninf
  | _, .ninf => .ninf
  | _, _ => .nan

/-- JS subtraction on the model (after ToNumber coercion). -/
def jSub (a b : JVal) : JVal :=
  match toNumber a, toNumber b with
  | .nan, _ => .nan
  | _, .nan => .nan
  | .num x, .num y => .num (x - y)
  | .inf, .inf => .nan
  | .ninf, .ninf => .nan
  | .inf, _ => .inf
  | _, .inf => .ninf
  | .ninf, _ => .ninf
  | _, .ninf => .inf
  | _, _ => .nan

/-- JS multiplication on the model (after ToNumber coercion). -/
def jMul (a b : JVal) : JVal :=
  match toNumber a, toNumber b with
  | .nan, _ => .nan
  | _, .nan => .nan
  | .num x, .num y => .num (x * y)
  | .inf, .inf => .inf
  | .inf, .ninf => .ninf
  | .ninf, .inf => .ninf
  | .ninf, .ninf => .inf
  | .inf, .num y => if y = 0 then .nan else if 0 < y then .inf else .ninf
  | .num x, .inf => if x = 0 then .nan else if 0 < x then .inf else .ninf
  | .ninf, .num y => if y = 0 then .nan else if 0 < y then .ninf else .inf
  | .num x, .ninf => if x = 0 then .nan else if 0 < x then .ninf else .inf
  | _, _ => .nan

/-- JS division on the model (after ToNumber coercion; x/0 gives a signed
infinity or NaN as in JS, with the -0 distinction dropped). -/
def jDiv (a b : JVal) : JVal :=
  match toNumber a, toNumber b with
  | .nan, _ => .nan
  | _, .nan => .nan
  | .num x, .num y =>
      if y = 0 then (if x = 0 then .nan else if 0 < x then .inf else .ninf)
      else .num (x / y)
  | .num _, .inf => .num 0
  | .num _, .ninf => .num 0
  | .inf, .num y => if 0 ≤ y then .inf else .ninf
  | .ninf, .num y => if 0 ≤ y then .ninf else .inf
  | _, _ => .nan

/-- JS Math.min on two arguments: NaN-propagating minimum. -/
def jMin (a b : JVal) : JVal :=
  match toNumber a, toNumber b with
  | .nan, _ => .nan
  | _, .nan => .nan
  | .num x, .num y => .num (min x y)
  | .ninf, _ => .ninf
  | _, .ninf => .ninf
  | .inf, y => y
  | x, .inf => x
  | _, _ => .nan

/-- JS Math.max on two arguments: NaN-propagating maximum. -/
def jMax (a b : JVal) : JVal :=
  match toNumber a, toNumber b with
  | .nan, _ => .nan
  | _, .nan => .nan
  | .num x, .num y => .num (max x y)
  | .inf, _ => .inf
  | _, .inf => .inf
  | .ninf, y => y
  | x, .ninf => x
  | _, _ => .nan

/-- JS comparison `a > b` (false whenever a NaN is involved). -/
def jGtB (a b : JVal) : Bool :=
  match toNumber a, toNumber b with
  | .nan, _ => false
  | _, .nan => false
  | .num x, .num y => decide (y < x)
  | .inf, .inf => false
  | .inf, _ => true
  | _, .inf => false
  | .ninf, _ => false
  | _, .ninf => true
  | _, _ => false

/-! ## Data model of the chart state seen by the wrapper -/

/-- Value of `scale.position` (the source compares it against the four
string literals; any other string behaves like `other`). -/
inductive Pos where
  | left
  | right
  | top
  | bottom
  | other
deriving DecidableEq, Repr

/-- Outcome of the `_getLabelSizes` probe along the dimension relevant to
the scale's orientation (`sizes.widest.width` for vertical scales,
`sizes.highest.height` for horizontal ones): either the call throws, or
the whole optional-access chain evaluates to a value (`value undef`
covers a missing method, falsy sizes object or missing field, since all
of those make the chained expression falsy exactly like undefined does
under the following `|| 0`). -/
inductive Measure where
  | throws
  | value (v : JVal)
deriving DecidableEq, Repr

/-- The parts of `scale.options` the wrapper reads. `ticksPadding` is
`undef` when `options.ticks` or `options.ticks.padding` is absent, which
matches the source because `opts && opts.ticks && +opts.ticks.padding`
then evaluates to a falsy value, exactly like `+undefined`. -/
structure ScaleOptions where
  display : JVal
  ticksPadding : JVal
deriving DecidableEq, Repr

/-- One entry of `chart.scales`. `isH` is the (boolean) result of the
host method `scale.isHorizontal()`; `len` models `scale._length`. -/
structure Scale where
  position : Pos
  isH : Bool
  width : JVal
  height : JVal
  left : JVal
  right : JVal
  top : JVal
  bottom : JVal
  len : JVal
  maxWidth : JVal
  maxHeight : JVal
  options : Option ScaleOptions
  measure : Measure
deriving DecidableEq, Repr

/-- `chart.chartArea`: the plotting region. -/
structure Region where
  left : JVal
  right : JVal
  top : JVal
  bottom : JVal
  width : JVal
  height : JVal
deriving DecidableEq, Repr

/-- The chart state the wrapper reads and mutates after the original
`Chart.layouts.update` has run. `scalesPresent` models the truthiness of
`chart.scales`; `canvasPresent` that of `chart.canvas`; `dpr` is
`chart.currentDevicePixelRatio`. -/
structure ChartState where
  scalesPresent : Bool
  scales : List Scale
  chartArea : Region
  canvasPresent : Bool
  canvasWidth : JVal
  canvasHeight : JVal
  dpr : JVal
deriving DecidableEq, Repr

/-! ## Embedding of docs/js/chartjs-fix.js -/

/-- Source helper `sanitizeNum(val, fallback)` — defined in the file but
never called by it (dead code kept for fidelity):
`isFinite(val) && val !== null ? val : (fallback || 0)`. -/
def sanitizeNum (val fallback : JVal) : JVal :=
  if jIsFinite val && !(val == JVal.null) then val else jOr fallback (JVal.num 0)

/-- The padding value reachable from a scale:
`scale.options && scale.options.ticks && +scale.options.ticks.padding`
collapses to `undef` whenever any link of the chain is absent. -/
def tickPaddingOf (s : Scale) : JVal :=
  match s.options with
  | none => JVal.undef
  | some o => o.ticksPadding

/-- The spacing resolver as the source computes it:
`(+spacingOption) || defaultValue`. -/
def resolve (spacingOption dflt : JVal) : JVal :=
  jOr (toNumber spacingOption) dflt

/-- `labelW` / `labelH` computation inside the repair branch: 0 when the
probe throws, otherwise the probed value with falsy results replaced by 0
(`(sizes && sizes.widest && sizes.widest.width) || 0`). -/
def measuredExtent (m : Measure) : JVal :=
  match m with
  | .throws => JVal.num 0
  | .value v => jOr v (JVal.num 0)

/-- Repair branch for a vertical (left/right) scale with non-finite
width: `scale.width = Math.min(scale.maxWidth || 200, labelW + pad*2 + 8)`
and `scale._length = scale.height`. -/
def repairVertical (s : Scale) : Scale :=
  if !s.isH && !(jIsFinite s.width) then
    let labelW := measuredExtent s.measure
    let pad := resolve (tickPaddingOf s) (JVal.num 3)
    { s with
      width := jMin (jOr s.maxWidth (JVal.num 200))
                    (jAdd (jAdd labelW (jMul pad (JVal.num 2))) (JVal.num 8)),
      len := s.height }
  else s

/-- Repair branch for a horizontal (top/bottom) scale with non-finite
height: `scale.height = Math.min(scale.maxHeight || 60, labelH + pad*2 + 8)`
and `scale._length = scale.width`. -/
def repairHorizontal (s : Scale) : Scale :=
  if s.isH && !(jIsFinite s.height) then
    let labelH := measuredExtent s.measure
    let pad := resolve (tickPaddingOf s) (JVal.num 3)
    { s with
      height := jMin (jOr s.maxHeight (JVal.num 60))
                     (jAdd (jAdd labelH (jMul pad (JVal.num 2))) (JVal.num 8)),
      len := s.width }
  else s

/-- The body of the per-scale repair loop (the vertical branch runs
first, then the horizontal one, as in the source). -/
def repairScale (s : Scale) : Scale :=
  repairHorizontal (repairVertical s)

/-- Detection loop: does any scale have a non-finite width or height
under the global isFinite (note that a null dimension counts as finite
here, because isFinite coerces null to 0)? -/
def needsRepair (scales : List Scale) : Bool :=
  scales.any fun s => !(jIsFinite s.width) || !(jIsFinite s.height)

/-- `scale.options && scale.options.display` as a Bool (the guard
`if (!scale.options || !scale.options.display) continue`). -/
def displayed (s : Scale) : Bool :=
  match s.options with
  | none => false
  | some o => truthy o.display

/-- The four padding accumulators of the position-recompute pass. -/
structure Pads where
  l : JVal
  r : JVal
  t : JVal
  b : JVal
deriving DecidableEq, Repr

/-- One iteration of the padding-measuring loop:
`padLeft = Math.max(padLeft, scale.width || 0)` on the accumulator of the
scale's own side, skipping non-displayed scales. -/
def padStep (acc : Pads) (s : Scale) : Pads :=
  if !(displayed s) then acc else
  match s.position with
  | .left => { acc with l := jMax acc.l (jOr s.width (JVal.num 0)) }
  | .right => { acc with r := jMax acc.r (jOr s.width (JVal.num 0)) }
  | .top => { acc with t := jMax acc.t (jOr s.height (JVal.num 0)) }
  | .bottom => { acc with b := jMax acc.b (jOr s.height (JVal.num 0)) }
  | .other => acc

/-- The full padding-measuring loop, starting from four zeros. -/
def accumPads (scales : List Scale) : Pads :=
  scales.foldl padStep ⟨JVal.num 0, JVal.num 0, JVal.num 0, JVal.num 0⟩

/-- The chart-area recompute:
`ca = {left: padLeft, right: chartW - padRight, top: padTop,
bottom: chartH - padBottom}` with width/height as the differences. -/
def computeCA (cW cH : JVal) (scales : List Scale) : Region :=
  let p := accumPads scales
  let l := p.l
  let r := jSub cW p.r
  let t := p.t
  let b := jSub cH p.b
  { left := l, right := r, top := t, bottom := b,
    width := jSub r l, height := jSub b t }

/-- `chartW = width || (chart.canvas && chart.canvas.width /
(chart.currentDevicePixelRatio || 1)) || 0`. -/
def chartWOf (c : ChartState) (w : JVal) : JVal :=
  jOr (jOr w (if c.canvasPresent
              then jDiv c.canvasWidth (jOr c.dpr (JVal.num 1))
              else JVal.undef))
      (JVal.num 0)

/-- `chartH = height || (chart.canvas && chart.canvas.height /
(chart.currentDevicePixelRatio || 1)) || 0`. -/
def chartHOf (c : ChartState) (h : JVal) : JVal :=
  jOr (jOr h (if c.canvasPresent
              then jDiv c.canvasHeight (jOr c.dpr (JVal.num 1))
              else JVal.undef))
      (JVal.num 0)

/-- Geometry assignment of the final loop (runs only inside the
`ca.width > 0 && ca.height > 0` guard; scales at positions other than
the four sides are left untouched, as the source's if/else chain has no
default branch). -/
def placeScale (cW cH : JVal) (ca : Region) (s : Scale) : Scale :=
  match s.position with
  | .left =>
      { s with left := JVal.num 0, right := ca.left, top := ca.top,
               bottom := ca.bottom, width := ca.left, height := ca.height,
               len := ca.height }
  | .right =>
      { s with left := ca.right, right := cW, top := ca.top,
               bottom := ca.bottom, width := jSub cW ca.right,
               height := ca.height, len := ca.height }
  | .top =>
      { s with left := ca.left, right := ca.right, top := JVal.num 0,
               bottom := ca.top, width := ca.width, height := ca.top,
               len := ca.width }
  | .bottom =>
      { s with left := ca.left, right := ca.right, top := ca.bottom,
               bottom := cH, width := ca.width, height := jSub cH ca.bottom,
               len := ca.width }
  | .other => s

/-- The post-processing the wrapped `Chart.layouts.update` performs after
the original update returned. The input state is the chart exactly as
the host's own layout pass left it; the padding argument of the wrapper
is only forwarded to the original update so it does not appear here. -/
def layoutsUpdatePost (chart : ChartState) (w h : JVal) : ChartState :=
  if !chart.scalesPresent then chart
  else if !(needsRepair chart.scales) then chart
  else
    let scales1 := chart.scales.map repairScale
    let cW := chartWOf chart w
    let cH := chartHOf chart h
    let ca := computeCA cW cH scales1
    if jGtB ca.width (JVal.num 0) && jGtB ca.height (JVal.num 0) then
      { chart with scales := scales1.map (placeScale cW cH ca),
                   chartArea := ca }
    else
      { chart with scales := scales1 }

/-! ## Embedding of the margin-sanitizing wrapper (second patch file)

The second patch wraps `Chart.layouts.update`, temporarily replaces each
scale's `update` method by a version that sanitizes the `maxW`, `maxH`
and `margins` arguments, calls the original update, and restores every
saved method afterwards. -/

/-- The margins object passed to `scale.update(maxW, maxH, margins)`. -/
structure Margins where
  left : JVal
  right : JVal
  top : JVal
  bottom : JVal
deriving DecidableEq, Repr

/-- Sanitization of the `maxW` / `maxH` argument:
`isFinite(maxW) ? maxW : (this.maxWidth || 0)` where `stored` is the
scale's own `maxWidth` (resp. `maxHeight`). -/
def sanitizeMaxDim (arg stored : JVal) : JVal :=
  if jIsFinite arg then arg else jOr stored (JVal.num 0)

/-- Sanitization of one margin field:
`isFinite(margins.left) ? margins.left : 0`. -/
def sanitizeMarginVal (v : JVal) : JVal :=
  if jIsFinite v then v else JVal.num 0

/-- Sanitization of the margins argument: a falsy margins object is
forwarded as-is (`margins ? {...} : margins`); a present one is rebuilt
field by field. -/
def sanitizeMargins (m : Option Margins) : Option Margins :=
  match m with
  | none => none
  | some mg => some { left := sanitizeMarginVal mg.left,
                      right := sanitizeMarginVal mg.right,
                      top := sanitizeMarginVal mg.top,
                      bottom := sanitizeMarginVal mg.bottom }

/-- Model of a scale's `update` function value for the save/restore
analysis: a base function possibly under some number of wrapper layers
(each pass of the patch adds one `wrap`). -/
inductive Fn where
  | base (n : ℕ)
  | wrap (f : Fn)
deriving DecidableEq, Repr

/-- `saved.set(scale, origUpdate)` on a JS Map keyed by scale object
identity: overwrite the value if the key is present (keeping insertion
order), else append. -/
def mapSet (saved : List (ℕ × Fn)) (k : ℕ) (v : Fn) : List (ℕ × Fn) :=
  if saved.any (fun p => p.1 = k) then
    saved.map (fun p => if p.1 = k then (k, v) else p)
  else
    saved ++ [(k, v)]

/-- One iteration of the wrap loop: save the scale's current `update` in
the Map and replace it by a wrapper around it. -/
def wrapStep (acc : (ℕ → Fn) × List (ℕ × Fn)) (i : ℕ) : (ℕ → Fn) × List (ℕ × Fn) :=
  let o := acc.1 i
  (fun j => if j = i then Fn.wrap o else acc.1 j, mapSet acc.2 i o)

/-- The wrap loop: for each scale (identified by an object id; the list
may contain the same object twice when the host registers one scale
under two keys), save the current `update` in the Map and replace it by
a wrapper around it. Returns the new update-function store and the saved
Map. -/
def wrapPhase (ids : List ℕ) (upd : ℕ → Fn) : (ℕ → Fn) × List (ℕ × Fn) :=
  ids.foldl wrapStep (upd, [])

/-- The restore loop: `for (const [scale, origUpdate] of saved)
scale.update = origUpdate`, in Map insertion order. -/
def restorePhase (saved : List (ℕ × Fn)) (upd : ℕ → Fn) : ℕ → Fn :=
  saved.foldl (fun st p => fun j => if j = p.1 then p.2 else st j) upd

/-- One full pass of the margin-sanitizing wrapper as far as the scales'
`update` methods are concerned: wrap every scale's update, (run the
original layout update, which does not itself reassign the method), then
restore from the saved Map. -/
def updateMethodsAfterPass (ids : List ℕ) (upd : ℕ → Fn) : ℕ → Fn :=
  restorePhase (wrapPhase ids upd).2 (wrapPhase ids upd).1

/-! ## Helpers used by theorem statements -/

/-- The rational value of a finite JVal, 0 otherwise. -/
def numOr0 : JVal → ℚ
  | .num q => q
  | _ => 0

/-- Membership of a rational point in a scale's assigned box, using
half-open intervals; only meaningful (and only satisfiable) when all
four coordinates are finite numbers. -/
def scaleBoxMem (s : Scale) (x y : ℚ) : Prop :=
  ∃ l r t b : ℚ,
    s.left = JVal.num l ∧ s.right = JVal.num r ∧
    s.top = JVal.num t ∧ s.bottom = JVal.num b ∧
    l ≤ x ∧ x < r ∧ t ≤ y ∧ y < b

/-- Membership of a rational point in a region rectangle, half-open. -/
def regionMem (reg : Region) (x y : ℚ) : Prop :=
  ∃ l r t b : ℚ,
    reg.left = JVal.num l ∧ reg.right = JVal.num r ∧
    reg.top = JVal.num t ∧ reg.bottom = JVal.num b ∧
    l ≤ x ∧ x < r ∧ t ≤ y ∧ y < b

/-- The dimension of a scale that the accumulation loop reads for a
given side: width for left/right, height for top/bottom. -/
def sideDim (s : Scale) (p : Pos) : JVal :=
  match p with
  | .left => s.width
  | .right => s.width
  | .top => s.height
  | .bottom => s.height
  | .other => JVal.num 0

/-- Modelled from the spec: the per-side thickness the accumulation
sub-pass is specified to use — the thickness of the (at most one)
visible axis on that side, or 0 when there is none. -/
def specSideThickness (scales : List Scale) (p : Pos) : ℚ :=
  match scales.find? (fun s => displayed s && s.position == p) with
  | some s => numOr0 (sideDim s p)
  | none => 0

/-- Test-harness constructor: a displayed scale at a given position with
given orientation flag, width and height; all other fields neutral. -/
def mkScale (p : Pos) (horiz : Bool) (w h : JVal) : Scale :=
  { position := p, isH := horiz, width := w, height := h,
    left := JVal.num 0, right := JVal.num 0, top := JVal.num 0,
    bottom := JVal.num 0, len := JVal.num 0,
    maxWidth := JVal.num 200, maxHeight := JVal.num 60,
    options := some { display := JVal.num 1, ticksPadding := JVal.undef },
    measure := Measure.value JVal.undef }

/-- Replace a scale's options by present options with the given display
flag and ticks padding. -/
def withPadding (s : Scale) (dis p : JVal) : Scale :=
  { s with options := some { display := dis, ticksPadding := p } }

/-! ## Basic computation lemmas about the JVal operations -/

theorem jOr_num_zero (q : ℚ) : jOr (JVal.num q) (JVal.num 0) = JVal.num q := by
  by_cases h : q = 0 <;> simp [jOr, truthy, h]

theorem jOr_num_of_ne (q : ℚ) (h : q ≠ 0) (d : JVal) :
    jOr (JVal.num q) d = JVal.num q := by
  simp [jOr, truthy, h]

theorem jSub_num (a b : ℚ) : jSub (JVal.num a) (JVal.num b) = JVal.num (a - b) := rfl

theorem jAdd_num (a b : ℚ) : jAdd (JVal.num a) (JVal.num b) = JVal.num (a + b) := rfl

theorem jMul_num (a b : ℚ) : jMul (JVal.num a) (JVal.num b) = JVal.num (a * b) := rfl

theorem jMin_num (a b : ℚ) : jMin (JVal.num a) (JVal.num b) = JVal.num (min a b) := rfl

theorem jMax_num (a b : ℚ) : jMax (JVal.num a) (JVal.num b) = JVal.num (max a b) := rfl

/-! ## Claim C3 : the fit computation -/

/-- Concrete axis for the C3 counterexample: vertical scale needing
repair, measured content extent 0, spacing option -10 (finite), max
extent 100 (finite positive). -/
def c3scale : Scale :=
  { withPadding (mkScale Pos.left false JVal.nan (JVal.num 50))
      (JVal.num 1) (JVal.num (-10)) with
    maxWidth := JVal.num 100, measure := Measure.value (JVal.num 0) }

/-- Claim C3 is false as stated: with finite contentExtent 0, finite
spacing -10 and finite maxExtent 100, the fitted thickness is
min(100, 0 + 2*(-10) + 8) = -12, which is not in the interval
claimed as 0 to maxExtent. -/
theorem fit_thickness_negative_spacing_cex :
    (repairScale c3scale).width = JVal.num (-12) ∧ ¬((0 : ℚ) ≤ -12) := by
  refine ⟨?_, by norm_num⟩
  have h : (repairScale c3scale).width =
      jMin (jOr (JVal.num 100) (JVal.num 200))
           (jAdd (jAdd (jOr (JVal.num 0) (JVal.num 0))
                       (jMul (JVal.num (-10)) (JVal.num 2)))
                 (JVal.num 8)) := rfl
  rw [h, jOr_num_of_ne 100 (by norm_num), jOr_num_zero, jMul_num, jAdd_num,
      jAdd_num, jMin_num]
  have h2 : (0 + (-10) * 2 + 8 : ℚ) = -12 := by norm_num
  rw [h2, min_eq_right (by norm_num : (-12 : ℚ) ≤ 100)]

/-- Claim C3 (amended): for a vertical axis entering the repair branch
with measured content extent c at least 0, finite resolved spacing sp and
finite maxExtent M greater than 0, the fitted thickness is exactly
min(M, c + 2*sp + 8) (FIXED_MARGIN = 8); and it lies between 0 and M
provided the resolved spacing is non-negative (which the claim as stated
omitted: a negative finite spacing passes the resolver unchanged and can
drive the thickness below 0). -/
theorem fit_thickness_formula_and_bounds (s : Scale) (c sp M : ℚ)
    (hV : s.isH = false) (hNF : jIsFinite s.width = false)
    (hMeas : s.measure = Measure.value (JVal.num c))
    (hsp : resolve (tickPaddingOf s) (JVal.num 3) = JVal.num sp)
    (hsp0 : 0 ≤ sp)
    (hMax : s.maxWidth = JVal.num M) (hM0 : 0 < M) :
    (repairScale s).width = JVal.num (min M (c + 2 * sp + 8)) ∧
    (0 ≤ c → 0 ≤ min M (c + 2 * sp + 8)) ∧
    min M (c + 2 * sp + 8) ≤ M := by
  have hbranch : repairVertical s =
      { s with
        width := jMin (jOr s.maxWidth (JVal.num 200))
                      (jAdd (jAdd (measuredExtent s.measure)
                                  (jMul (resolve (tickPaddingOf s) (JVal.num 3))
                                        (JVal.num 2)))
                            (JVal.num 8)),
        len := s.height } := by
    unfold repairVertical
    rw [if_pos]
    simp [hV, hNF]
  have hwidth : (repairVertical s).width = JVal.num (min M (c + 2 * sp + 8)) := by
    rw [hbranch]
    show jMin (jOr s.maxWidth (JVal.num 200)) _ = _
    rw [hMax, hMeas, hsp, jOr_num_of_ne M (ne_of_gt hM0)]
    show jMin (JVal.num M)
        (jAdd (jAdd (jOr (JVal.num c) (JVal.num 0)) (jMul (JVal.num sp) (JVal.num 2)))
              (JVal.num 8)) = _
    rw [jOr_num_zero, jMul_num, jAdd_num, jAdd_num, jMin_num]
    ring_nf
  have hH : (repairVertical s).isH = false := by rw [hbranch]; exact hV
  have hfin : jIsFinite (repairVertical s).height = jIsFinite s.height := by
    rw [hbranch]
  refine ⟨?_, ?_, min_le_left _ _⟩
  · unfold repairScale repairHorizontal
    rw [if_neg]
    · exact hwidth
    · simp [hH]
  · intro hc
    exact le_min (le_of_lt hM0) (by linarith)

/-- Concrete axis for the C3 witness: the spec Scenario A numbers
(contentExtent 40, spacing absent so the resolver gives 3, maxExtent 200). -/
def c3wScale : Scale :=
  { withPadding (mkScale Pos.left false JVal.nan (JVal.num 50))
      (JVal.num 1) JVal.undef with
    maxWidth := JVal.num 200,
    measure := Measure.value (JVal.num 40) }

/-- Witness for the amended C3 theorem at a concrete input
(c = 40, sp = 3, M = 200, the spec Scenario A numbers). -/
theorem fit_thickness_formula_and_bounds_witness :
    (repairScale c3wScale).width = JVal.num (min 200 (40 + 2 * 3 + 8)) ∧
    ((0 : ℚ) ≤ 40 → (0 : ℚ) ≤ min 200 (40 + 2 * 3 + 8)) ∧
    min (200 : ℚ) (40 + 2 * 3 + 8) ≤ 200 :=
  fit_thickness_formula_and_bounds c3wScale 40 3 200 rfl rfl rfl (by decide)
    (by norm_num) rfl (by norm_num)

/-! ## Shared helper lemmas about the repair branch -/

theorem jOr_falsy (a b : JVal) (h : truthy a = false) : jOr a b = b := by
  simp [jOr, h]

theorem jMin_inf_num (x : ℚ) : jMin JVal.inf (JVal.num x) = JVal.num x := rfl

theorem repairVertical_eq (s : Scale) (hV : s.isH = false)
    (hNF : jIsFinite s.width = false) :
    repairVertical s =
      { s with
        width := jMin (jOr s.maxWidth (JVal.num 200))
                      (jAdd (jAdd (measuredExtent s.measure)
                                  (jMul (resolve (tickPaddingOf s) (JVal.num 3))
                                        (JVal.num 2)))
                            (JVal.num 8)),
        len := s.height } := by
  unfold repairVertical
  rw [if_pos]
  simp [hV, hNF]

theorem repairScale_width_vertical (s : Scale) (hV : s.isH = false)
    (hNF : jIsFinite s.width = false) :
    (repairScale s).width =
      jMin (jOr s.maxWidth (JVal.num 200))
           (jAdd (jAdd (measuredExtent s.measure)
                       (jMul (resolve (tickPaddingOf s) (JVal.num 3))
                             (JVal.num 2)))
                 (JVal.num 8)) := by
  unfold repairScale repairHorizontal
  rw [repairVertical_eq s hV hNF, if_neg]
  simp [hV]

/-! ## Claim C4 : repair under a throwing measurer and non-finite maxExtent -/

/-- Concrete axis for the C4 counterexample: vertical scale needing
repair, content measurement throws, spacing absent, maxExtent NaN
(non-finite). -/
def c4scale : Scale :=
  { mkScale Pos.left false JVal.nan (JVal.num 50) with
    maxWidth := JVal.nan, measure := Measure.throws }

/-- Claim C4 is false as stated: with a non-finite (NaN) maxExtent the
sanitizer does not return 0 as the safe degraded thickness; the NaN
ceiling is falsy, so the fallback ceiling 200 engages and the result is
min(200, 0 + 2*3 + 8) = 14. -/
theorem sanitize_nonfinite_maxextent_not_zero_cex :
    jIsFinite c4scale.maxWidth = false ∧
    (repairScale c4scale).width = JVal.num 14 ∧
    (repairScale c4scale).width ≠ JVal.num 0 := by
  have h : (repairScale c4scale).width = JVal.num (min 200 (0 + 3 * 2 + 8)) := rfl
  have h2 : (0 + 3 * 2 + 8 : ℚ) = 14 := by norm_num
  have h3 : (repairScale c4scale).width = JVal.num 14 := by
    rw [h, h2, min_eq_right (by norm_num : (14 : ℚ) ≤ 200)]
  refine ⟨rfl, h3, ?_⟩
  rw [h3]
  intro hcon
  exact absurd (JVal.num.inj hcon) (by norm_num)

/-- Claim C4 (amended): when the content measurement throws, no exception
propagates (the fitter proceeds with labelW = 0) and, provided the
resolved spacing is finite and maxExtent is not negative infinity, the
repaired thickness is a finite number; when maxExtent is NaN the falsy
ceiling is replaced by the fallback 200, giving thickness
min(200, 0 + 2*spacing + 8) — which is positive, not the 0 the claim
states, whenever the resolved spacing is non-negative. -/
theorem sanitize_throw_finite_thickness (s : Scale) (p : ℚ)
    (hV : s.isH = false) (hNF : jIsFinite s.width = false)
    (hMeas : s.measure = Measure.throws)
    (hp : resolve (tickPaddingOf s) (JVal.num 3) = JVal.num p)
    (hmw : s.maxWidth ≠ JVal.ninf) :
    (∃ q : ℚ, (repairScale s).width = JVal.num q) ∧
    (s.maxWidth = JVal.nan →
       (repairScale s).width = JVal.num (min 200 (0 + p * 2 + 8))) ∧
    (s.maxWidth = JVal.nan → 0 ≤ p → (repairScale s).width ≠ JVal.num 0) := by
  have hbase : (repairScale s).width =
      jMin (jOr s.maxWidth (JVal.num 200)) (JVal.num (0 + p * 2 + 8)) := by
    rw [repairScale_width_vertical s hV hNF, hMeas, hp]
    rfl
  have hnan : s.maxWidth = JVal.nan →
      (repairScale s).width = JVal.num (min 200 (0 + p * 2 + 8)) := by
    intro hc
    rw [hbase, hc]
    rfl
  refine ⟨?_, hnan, ?_⟩
  · cases hc : s.maxWidth with
    | num M =>
        by_cases hM : M = 0
        · exact ⟨min 200 (0 + p * 2 + 8), by
            rw [hbase, hc, hM, jOr_falsy _ _ (by decide), jMin_num]⟩
        · exact ⟨min M (0 + p * 2 + 8), by
            rw [hbase, hc, jOr_num_of_ne M hM, jMin_num]⟩
    | nan => exact ⟨min 200 (0 + p * 2 + 8), by
        rw [hbase, hc, jOr_falsy JVal.nan (JVal.num 200) rfl, jMin_num]⟩
    | inf => exact ⟨0 + p * 2 + 8, by
        rw [hbase, hc]
        rfl⟩
    | ninf => exact absurd hc hmw
    | null => exact ⟨min 200 (0 + p * 2 + 8), by
        rw [hbase, hc, jOr_falsy JVal.null (JVal.num 200) rfl, jMin_num]⟩
    | undef => exact ⟨min 200 (0 + p * 2 + 8), by
        rw [hbase, hc, jOr_falsy JVal.undef (JVal.num 200) rfl, jMin_num]⟩
  · intro hc hp0
    rw [hnan hc]
    have hpos : 0 < min (200 : ℚ) (0 + p * 2 + 8) :=
      lt_min (by norm_num) (by linarith)
    intro hcon
    have := JVal.num.inj hcon
    linarith [hpos]

/-- Witness for the amended C4 theorem at the concrete counterexample
axis (spacing resolves to the default 3). -/
theorem sanitize_throw_finite_thickness_witness :
    (∃ q : ℚ, (repairScale c4scale).width = JVal.num q) ∧
    (repairScale c4scale).width = JVal.num (min 200 (0 + 3 * 2 + 8)) ∧
    (repairScale c4scale).width ≠ JVal.num 0 :=
  ⟨(sanitize_throw_finite_thickness c4scale 3 rfl rfl rfl rfl (by decide)).1,
   (sanitize_throw_finite_thickness c4scale 3 rfl rfl rfl rfl (by decide)).2.1 rfl,
   (sanitize_throw_finite_thickness c4scale 3 rfl rfl rfl rfl (by decide)).2.2
     rfl (by norm_num)⟩

/-! ## Claim C5 : the spacing resolver -/

/-- Claim C5 is false as stated: a present, finite, zero spacing option
does not pass through (0 is falsy, so the default is returned); a
negative finite option is returned rather than the default; an infinite
option is returned, so the resolver can return a non-finite number. -/
theorem resolve_zero_spacing_cex :
    resolve (JVal.num 0) (JVal.num 3) = JVal.num 3 ∧
    JVal.num 3 ≠ JVal.num 0 ∧
    resolve (JVal.num (-10)) (JVal.num 3) = JVal.num (-10) ∧
    resolve JVal.inf (JVal.num 3) = JVal.inf ∧
    jIsFinite JVal.inf = false := by
  refine ⟨?_, ?_, ?_, rfl, rfl⟩
  · exact jOr_falsy _ _ (by decide)
  · intro hcon
    exact absurd (JVal.num.inj hcon) (by norm_num)
  · exact jOr_num_of_ne (-10) (by norm_num) _

/-- Claim C5 (amended): the resolver returns the coerced spacing option
whenever that coercion is truthy — any nonzero non-NaN number, including
negative and infinite values — and returns the default when the coercion
is 0 or NaN (so a present zero spacing does NOT pass through, and
absent, null and NaN options all fall back); it can return a non-finite
number when the option is infinite. For an absent option the fitted
thickness equals the thickness obtained with the option set to the
documented default 3. -/
theorem resolve_characterization :
    (∀ q : ℚ, q ≠ 0 → ∀ d : JVal, resolve (JVal.num q) d = JVal.num q) ∧
    (∀ d : JVal,
       resolve (JVal.num 0) d = d ∧ resolve JVal.nan d = d ∧
       resolve JVal.undef d = d ∧ resolve JVal.null d = d) ∧
    (∀ d : JVal, resolve JVal.inf d = JVal.inf) ∧
    (∀ (s : Scale) (dis : JVal),
       (repairScale (withPadding s dis JVal.undef)).width =
       (repairScale (withPadding s dis (JVal.num 3))).width) := by
  refine ⟨fun q hq d => jOr_num_of_ne q hq d,
          fun d => ⟨jOr_falsy _ _ (by decide), rfl, rfl, rfl⟩,
          fun d => rfl, ?_⟩
  intro s dis
  by_cases hH : s.isH
  · have h1 : repairVertical (withPadding s dis JVal.undef) =
        withPadding s dis JVal.undef := by
      unfold repairVertical
      rw [if_neg]
      simp [withPadding, hH]
    have h2 : repairVertical (withPadding s dis (JVal.num 3)) =
        withPadding s dis (JVal.num 3) := by
      unfold repairVertical
      rw [if_neg]
      simp [withPadding, hH]
    unfold repairScale
    rw [h1, h2]
    unfold repairHorizontal
    by_cases hh : jIsFinite s.height
    · rw [if_neg (by simp [withPadding, hh]), if_neg (by simp [withPadding, hh])]
      rfl
    · rw [if_pos (by simp [withPadding, hH, hh]), if_pos (by simp [withPadding, hH, hh])]
      rfl
  · by_cases hw : jIsFinite s.width
    · have h1 : repairVertical (withPadding s dis JVal.undef) =
          withPadding s dis JVal.undef := by
        unfold repairVertical
        rw [if_neg]
        simp [withPadding, hw]
      have h2 : repairVertical (withPadding s dis (JVal.num 3)) =
          withPadding s dis (JVal.num 3) := by
        unfold repairVertical
        rw [if_neg]
        simp [withPadding, hw]
      unfold repairScale
      rw [h1, h2]
      unfold repairHorizontal
      rw [if_neg (by simp [withPadding, hH]), if_neg (by simp [withPadding, hH])]
      rfl
    · have hsH : s.isH = false := by revert hH; cases s.isH <;> simp
      have hsw : jIsFinite s.width = false := by
        revert hw; cases jIsFinite s.width <;> simp
      have hres2 : resolve JVal.undef (JVal.num 3) = resolve (JVal.num 3) (JVal.num 3) := by
        show JVal.num 3 = jOr (JVal.num 3) (JVal.num 3)
        rw [jOr_num_of_ne 3 (by norm_num)]
      have ht1 : tickPaddingOf (withPadding s dis JVal.undef) = JVal.undef := rfl
      have ht2 : tickPaddingOf (withPadding s dis (JVal.num 3)) = JVal.num 3 := rfl
      have hm1 : (withPadding s dis JVal.undef).maxWidth = s.maxWidth := rfl
      have hm2 : (withPadding s dis (JVal.num 3)).maxWidth = s.maxWidth := rfl
      have hme1 : (withPadding s dis JVal.undef).measure = s.measure := rfl
      have hme2 : (withPadding s dis (JVal.num 3)).measure = s.measure := rfl
      rw [repairScale_width_vertical _ (by simp [withPadding, hsH])
            (by simp [withPadding, hsw]),
          repairScale_width_vertical _ (by simp [withPadding, hsH])
            (by simp [withPadding, hsw]),
          ht1, ht2, hres2, hm1, hm2, hme1, hme2]

/-- Witness for the amended C5 theorem: a nonzero spacing passes through
the resolver, a zero spacing falls back to the default. -/
theorem resolve_characterization_witness :
    resolve (JVal.num 5) (JVal.num 3) = JVal.num 5 ∧
    resolve (JVal.num 0) (JVal.num 3) = JVal.num 3 :=
  ⟨resolve_characterization.1 5 (by norm_num) (JVal.num 3),
   (resolve_characterization.2.1 (JVal.num 3)).1⟩

/-! ## Claim C1 : the core region invariant and the null-thickness defect -/

/-- Chart state for C1: after the host pass, the left scale's width is
null and the chart area is all-NaN (the defect state the file says it
repairs). -/
def c1chart : ChartState :=
  { scalesPresent := true,
    scales := [mkScale Pos.left false JVal.null (JVal.num 20)],
    chartArea := ⟨JVal.nan, JVal.nan, JVal.nan, JVal.nan, JVal.nan, JVal.nan⟩,
    canvasPresent := true, canvasWidth := JVal.num 100,
    canvasHeight := JVal.num 100, dpr := JVal.num 1 }

/-- Claim C1 (code_bug evaluation): a scale whose width is null after
the host layout pass is treated as finite by the detection loop — the
global isFinite coerces null to 0 — so the wrapper performs no repair at
all and returns the chart area untouched, here with NaN width and
non-finite coordinates, violating the claimed invariant. The file's own
sanitizeNum helper (defined with an explicit null check but never
called) would have replaced the null. -/
theorem null_width_escapes_repair :
    jIsFinite JVal.null = true ∧
    layoutsUpdatePost c1chart (JVal.num 100) (JVal.num 100) = c1chart ∧
    (layoutsUpdatePost c1chart (JVal.num 100) (JVal.num 100)).chartArea.width =
      JVal.nan ∧
    jIsFinite (layoutsUpdatePost c1chart (JVal.num 100)
                 (JVal.num 100)).chartArea.left = false ∧
    sanitizeNum JVal.null (JVal.num 55) = JVal.num 55 := by
  refine ⟨rfl, rfl, rfl, rfl, by decide⟩

/-! ## Claim C2 : the degenerate-layout path -/

/-- Chart state for C2 (spec Scenario C): canvas 100 by 100, a left axis
that repairs to thickness 70 and a right axis of thickness 60
(sum 130 exceeds the canvas width); the host chart area is all-NaN. -/
def c2left : Scale :=
  { mkScale Pos.left false JVal.nan (JVal.num 100) with
    maxWidth := JVal.num 70, measure := Measure.value (JVal.num 100) }

/-- The right axis of the C2 chart: finite thickness 60. -/
def c2right : Scale := mkScale Pos.right false (JVal.num 60) (JVal.num 100)

/-- The C2 chart state. -/
def c2chart : ChartState :=
  { scalesPresent := true, scales := [c2left, c2right],
    chartArea := ⟨JVal.nan, JVal.nan, JVal.nan, JVal.nan, JVal.nan, JVal.nan⟩,
    canvasPresent := true, canvasWidth := JVal.num 100,
    canvasHeight := JVal.num 100, dpr := JVal.num 1 }

/-- Claim C2 is false as stated: in the degenerate case (accumulated
thicknesses 70 + 60 exceed the canvas width 100) the wrapper does not
clamp the region width to 0 — the chart area keeps its host value (NaN
here) — and the axis thicknesses stay 70 and 60, not proportionally
shrunk; no degenerate-layout condition value is produced anywhere in the
code. -/
theorem degenerate_layout_not_clamped_cex :
    needsRepair c2chart.scales = true ∧
    (layoutsUpdatePost c2chart (JVal.num 100) (JVal.num 100)).chartArea.width =
      JVal.nan ∧
    (layoutsUpdatePost c2chart (JVal.num 100) (JVal.num 100)).chartArea.width ≠
      JVal.num 0 ∧
    (layoutsUpdatePost c2chart (JVal.num 100) (JVal.num 100)).scales.map
        Scale.width = [JVal.num 70, JVal.num 60] := by
  have hwidth : (layoutsUpdatePost c2chart (JVal.num 100)
      (JVal.num 100)).chartArea.width = JVal.nan := by
    norm_num [layoutsUpdatePost, needsRepair, jIsFinite, toNumber, repairScale,
      repairVertical, repairHorizontal, measuredExtent, resolve, tickPaddingOf,
      jOr, truthy, jMin, jMax, jAdd, jMul, jSub, jGtB, computeCA, accumPads,
      padStep, displayed, chartWOf, chartHOf, jDiv, placeScale, c2chart, c2left,
      c2right, mkScale, min_def, max_def]
  refine ⟨by decide, hwidth, ?_, ?_⟩
  · rw [hwidth]
    exact fun hcon => JVal.noConfusion hcon
  · norm_num [layoutsUpdatePost, needsRepair, jIsFinite, toNumber, repairScale,
      repairVertical, repairHorizontal, measuredExtent, resolve, tickPaddingOf,
      jOr, truthy, jMin, jMax, jAdd, jMul, jSub, jGtB, computeCA, accumPads,
      padStep, displayed, chartWOf, chartHOf, jDiv, placeScale, c2chart, c2left,
      c2right, mkScale, min_def, max_def]

/-- Claim C2 (amended): when the recomputed region fails the positivity
guard (width or height not greater than 0, the degenerate case), the
wrapper applies no positioning at all: the chart area and every scale's
left/right/top/bottom are left exactly as the host produced them (only
the width/height/length repairs of the first loop persist); nothing is
clamped, shrunk or reported. -/
theorem degenerate_layout_leaves_host_geometry (chart : ChartState) (w h : JVal)
    (hsp : chart.scalesPresent = true)
    (hnr : needsRepair chart.scales = true)
    (hguard : (jGtB (computeCA (chartWOf chart w) (chartHOf chart h)
                       (chart.scales.map repairScale)).width (JVal.num 0) &&
               jGtB (computeCA (chartWOf chart w) (chartHOf chart h)
                       (chart.scales.map repairScale)).height (JVal.num 0)) =
              false) :
    layoutsUpdatePost chart w h =
      { chart with scales := chart.scales.map repairScale } ∧
    (layoutsUpdatePost chart w h).chartArea = chart.chartArea ∧
    ∀ s : Scale, (repairScale s).left = s.left ∧ (repairScale s).right = s.right ∧
      (repairScale s).top = s.top ∧ (repairScale s).bottom = s.bottom := by
  have hupd : layoutsUpdatePost chart w h =
      { chart with scales := chart.scales.map repairScale } := by
    simp only [layoutsUpdatePost, hsp, hnr, Bool.not_true, Bool.false_eq_true,
      if_false, hguard]
  refine ⟨hupd, by rw [hupd], ?_⟩
  intro s
  refine ⟨?_, ?_, ?_, ?_⟩ <;>
    (unfold repairScale repairHorizontal repairVertical; split_ifs <;> rfl)

/-- Witness for the amended C2 theorem at the concrete Scenario C chart. -/
theorem degenerate_layout_leaves_host_geometry_witness :
    layoutsUpdatePost c2chart (JVal.num 100) (JVal.num 100) =
      { c2chart with scales := c2chart.scales.map repairScale } ∧
    (layoutsUpdatePost c2chart (JVal.num 100) (JVal.num 100)).chartArea =
      c2chart.chartArea :=
  have hg := by
    norm_num [jIsFinite, toNumber, repairScale, repairVertical,
      repairHorizontal, measuredExtent, resolve, tickPaddingOf, jOr, truthy,
      jMin, jMax, jAdd, jMul, jSub, jGtB, computeCA, accumPads, padStep,
      displayed, chartWOf, chartHOf, jDiv, c2chart, c2left, c2right, mkScale,
      min_def, max_def]
  ⟨(degenerate_layout_leaves_host_geometry c2chart (JVal.num 100) (JVal.num 100)
      rfl (by decide) hg).1,
   (degenerate_layout_leaves_host_geometry c2chart (JVal.num 100) (JVal.num 100)
      rfl (by decide) hg).2.1⟩

/-! ## Claim C6 : idempotence of the repair -/

theorem repairVertical_isH (s : Scale) : (repairVertical s).isH = s.isH := by
  unfold repairVertical
  split_ifs <;> rfl

theorem repairHorizontal_isH (s : Scale) : (repairHorizontal s).isH = s.isH := by
  unfold repairHorizontal
  split_ifs <;> rfl

theorem repairVertical_of_isH (s : Scale) (h : s.isH = true) :
    repairVertical s = s := by
  unfold repairVertical
  rw [if_neg]
  simp [h]

theorem repairHorizontal_of_isH_false (s : Scale) (h : s.isH = false) :
    repairHorizontal s = s := by
  unfold repairHorizontal
  rw [if_neg]
  simp [h]

theorem repairHorizontal_eq (s : Scale) (hH : s.isH = true)
    (hNF : jIsFinite s.height = false) :
    repairHorizontal s =
      { s with
        height := jMin (jOr s.maxHeight (JVal.num 60))
                       (jAdd (jAdd (measuredExtent s.measure)
                                   (jMul (resolve (tickPaddingOf s) (JVal.num 3))
                                         (JVal.num 2)))
                             (JVal.num 8)),
        len := s.width } := by
  unfold repairHorizontal
  rw [if_pos]
  simp [hH, hNF]

theorem repairVertical_of_finite (s : Scale) (h : jIsFinite s.width = true) :
    repairVertical s = s := by
  unfold repairVertical
  rw [if_neg]
  simp [h]

theorem repairHorizontal_of_finite (s : Scale) (h : jIsFinite s.height = true) :
    repairHorizontal s = s := by
  unfold repairHorizontal
  rw [if_neg]
  simp [h]

theorem repairVertical_idem (s : Scale) :
    repairVertical (repairVertical s) = repairVertical s := by
  by_cases h2 : jIsFinite (repairVertical s).width = true
  · exact repairVertical_of_finite _ h2
  · have h2' : jIsFinite (repairVertical s).width = false := by
      revert h2; cases jIsFinite (repairVertical s).width <;> simp
    by_cases hH : s.isH
    · exact repairVertical_of_isH _ (by rw [repairVertical_isH]; exact hH)
    · have hV : s.isH = false := by revert hH; cases s.isH <;> simp
      by_cases hw : jIsFinite s.width = true
      · rw [repairVertical_of_finite s hw] at h2'
        rw [h2'] at hw
        exact absurd hw (by simp)
      · have hw' : jIsFinite s.width = false := by
          revert hw; cases jIsFinite s.width <;> simp
        have hV2 : (repairVertical s).isH = false := by
          rw [repairVertical_isH]; exact hV
        have h3 := repairVertical_eq (repairVertical s) hV2 h2'
        have h1 := repairVertical_eq s hV hw'
        rw [h3, h1]
        rfl

theorem repairHorizontal_idem (s : Scale) :
    repairHorizontal (repairHorizontal s) = repairHorizontal s := by
  by_cases h2 : jIsFinite (repairHorizontal s).height = true
  · exact repairHorizontal_of_finite _ h2
  · have h2' : jIsFinite (repairHorizontal s).height = false := by
      revert h2; cases jIsFinite (repairHorizontal s).height <;> simp
    by_cases hH : s.isH
    · by_cases hh : jIsFinite s.height = true
      · rw [repairHorizontal_of_finite s hh] at h2'
        rw [h2'] at hh
        exact absurd hh (by simp)
      · have hh' : jIsFinite s.height = false := by
          revert hh; cases jIsFinite s.height <;> simp
        have hH2 : (repairHorizontal s).isH = true := by
          rw [repairHorizontal_isH]; exact hH
        have h3 := repairHorizontal_eq (repairHorizontal s) hH2 h2'
        have h1 := repairHorizontal_eq s hH hh'
        rw [h3, h1]
        rfl
    · have hHf : s.isH = false := by revert hH; cases s.isH <;> simp
      exact repairHorizontal_of_isH_false _
        (by rw [repairHorizontal_isH]; exact hHf)

/-- A clean chart (all scale dimensions finite) for the C6 witness. -/
def cleanChart : ChartState :=
  { scalesPresent := true,
    scales := [mkScale Pos.left false (JVal.num 30) (JVal.num 200)],
    chartArea := ⟨JVal.num 30, JVal.num 800, JVal.num 0, JVal.num 400,
                  JVal.num 770, JVal.num 400⟩,
    canvasPresent := true, canvasWidth := JVal.num 800,
    canvasHeight := JVal.num 400, dpr := JVal.num 1 }

/-- Claim C6 (confirmed): the per-scale repair is idempotent —
sanitize(sanitize(x)) = sanitize(x) for every fitted axis x — and
re-running the layout repair on a chart whose geometry is already valid
(every scale width and height finite) leaves the chart unchanged. -/
theorem sanitize_idempotent_and_valid_noop :
    (∀ s : Scale, repairScale (repairScale s) = repairScale s) ∧
    (∀ (chart : ChartState) (w h : JVal),
       (∀ s ∈ chart.scales, jIsFinite s.width = true ∧ jIsFinite s.height = true) →
       layoutsUpdatePost chart w h = chart) := by
  constructor
  · intro s
    unfold repairScale
    by_cases hH : s.isH
    · rw [repairVertical_of_isH s hH,
          repairVertical_of_isH (repairHorizontal s) (by rw [repairHorizontal_isH]; exact hH),
          repairHorizontal_idem]
    · have hsH : s.isH = false := by revert hH; cases s.isH <;> simp
      rw [repairHorizontal_of_isH_false (repairVertical s)
            (by rw [repairVertical_isH]; exact hsH),
          repairVertical_idem,
          repairHorizontal_of_isH_false (repairVertical s)
            (by rw [repairVertical_isH]; exact hsH)]
  · intro chart w h hall
    have hnr : needsRepair chart.scales = false := by
      simp only [needsRepair, List.any_eq_false]
      intro s hs
      obtain ⟨h1, h2⟩ := hall s hs
      simp [h1, h2]
    unfold layoutsUpdatePost
    rw [hnr]
    simp

/-- Witness for C6 at a concrete axis and a concrete valid chart. -/
theorem sanitize_idempotent_and_valid_noop_witness :
    repairScale (repairScale (mkScale Pos.right false (JVal.num 60) (JVal.num 100))) =
      repairScale (mkScale Pos.right false (JVal.num 60) (JVal.num 100)) ∧
    layoutsUpdatePost cleanChart (JVal.num 800) (JVal.num 400) = cleanChart :=
  ⟨sanitize_idempotent_and_valid_noop.1
     (mkScale Pos.right false (JVal.num 60) (JVal.num 100)),
   sanitize_idempotent_and_valid_noop.2 cleanChart (JVal.num 800) (JVal.num 400)
     (by decide)⟩

/-! ## Claim C9 : the margin-sanitizing wrapper -/

/-- Claim C9 is false as stated: with a NaN maxW argument and a stored
maxWidth of +Infinity, the fallback `this.maxWidth || 0` is +Infinity —
not a finite fallback; and a null margin value passes through unchanged
(the global isFinite treats null as finite) instead of being replaced
by 0. -/
theorem margin_sanitize_maxw_nonfinite_cex :
    sanitizeMaxDim JVal.nan JVal.inf = JVal.inf ∧
    jIsFinite (sanitizeMaxDim JVal.nan JVal.inf) = false ∧
    sanitizeMargins (some ⟨JVal.null, JVal.num 1, JVal.num 2, JVal.num 3⟩) =
      some ⟨JVal.null, JVal.num 1, JVal.num 2, JVal.num 3⟩ ∧
    JVal.null ≠ JVal.num 0 := by
  refine ⟨rfl, rfl, by decide, by decide⟩

/-- Claim C9 (amended): finite numeric margin values pass through
unchanged and the numeric non-finite ones (NaN and the infinities, and
undefined) are replaced by 0, but a null margin passes through as null;
a non-finite maxW/maxH argument is replaced by the scale's stored
ceiling when that is truthy and by 0 otherwise — a replacement that is
finite whenever the stored ceiling is finite or falsy, but is +Infinity
when the stored ceiling is +Infinity. -/
theorem margin_sanitize_characterization :
    (∀ q : ℚ, sanitizeMarginVal (JVal.num q) = JVal.num q) ∧
    (sanitizeMarginVal JVal.nan = JVal.num 0 ∧
     sanitizeMarginVal JVal.inf = JVal.num 0 ∧
     sanitizeMarginVal JVal.ninf = JVal.num 0 ∧
     sanitizeMarginVal JVal.undef = JVal.num 0 ∧
     sanitizeMarginVal JVal.null = JVal.null) ∧
    (∀ arg stored : JVal, jIsFinite arg = true → sanitizeMaxDim arg stored = arg) ∧
    (∀ arg stored : JVal, jIsFinite arg = false →
       sanitizeMaxDim arg stored = jOr stored (JVal.num 0) ∧
       ((jIsFinite stored = true ∨ truthy stored = false) →
          jIsFinite (sanitizeMaxDim arg stored) = true) ∧
       (stored = JVal.inf → sanitizeMaxDim arg stored = JVal.inf)) := by
  refine ⟨?_, ⟨rfl, rfl, rfl, rfl, rfl⟩, ?_, ?_⟩
  · intro q
    simp [sanitizeMarginVal, jIsFinite, toNumber]
  · intro arg stored h
    unfold sanitizeMaxDim
    rw [if_pos h]
  · intro arg stored h
    have hbase : sanitizeMaxDim arg stored = jOr stored (JVal.num 0) := by
      unfold sanitizeMaxDim
      rw [if_neg]
      simp [h]
    refine ⟨hbase, ?_, ?_⟩
    · intro hcase
      rw [hbase]
      cases stored with
      | num q =>
          by_cases hq : q = 0 <;> simp [jOr, truthy, hq, jIsFinite, toNumber]
      | nan => rfl
      | inf =>
          rcases hcase with hc | hc <;> simp [jIsFinite, toNumber, truthy] at hc
      | ninf =>
          rcases hcase with hc | hc <;> simp [jIsFinite, toNumber, truthy] at hc
      | null => rfl
      | undef => rfl
    · intro hs
      rw [hbase, hs]
      rfl

/-- Witness for the amended C9 theorem at concrete inputs. -/
theorem margin_sanitize_characterization_witness :
    sanitizeMarginVal (JVal.num 7) = JVal.num 7 ∧
    sanitizeMaxDim (JVal.num 7) JVal.inf = JVal.num 7 ∧
    sanitizeMaxDim JVal.nan (JVal.num 120) = jOr (JVal.num 120) (JVal.num 0) :=
  ⟨margin_sanitize_characterization.1 7,
   margin_sanitize_characterization.2.2.1 (JVal.num 7) JVal.inf rfl,
   (margin_sanitize_characterization.2.2.2 JVal.nan (JVal.num 120) rfl).1⟩

/-! ## Claim C10 : save/restore of the scale update methods -/

theorem mapSet_fresh (saved : List (ℕ × Fn)) (k : ℕ) (v : Fn)
    (h : ∀ p ∈ saved, p.1 ≠ k) : mapSet saved k v = saved ++ [(k, v)] := by
  unfold mapSet
  rw [if_neg]
  intro hc
  rw [List.any_eq_true] at hc
  obtain ⟨p, hp, hpk⟩ := hc
  exact h p hp (by simpa using hpk)

theorem wrapAux_gen (ids : List ℕ) :
    ∀ (st : ℕ → Fn) (saved : List (ℕ × Fn)),
    (∀ p ∈ saved, p.1 ∉ ids) → ids.Nodup →
    ids.foldl wrapStep (st, saved) =
      ((fun j => if j ∈ ids then Fn.wrap (st j) else st j),
       saved ++ ids.map (fun i => (i, st i))) := by
  induction ids with
  | nil =>
      intro st saved _ _
      rw [Prod.ext_iff]
      constructor
      · funext j
        simp
      · simp
  | cons i ids ih =>
      intro st saved hdisj hnd
      rw [List.foldl_cons]
      have hfresh : ∀ p ∈ saved, p.1 ≠ i := by
        intro p hp
        intro hc
        exact hdisj p hp (by rw [hc]; exact List.mem_cons_self i ids)
      have hstep : wrapStep (st, saved) i =
          ((fun j => if j = i then Fn.wrap (st i) else st j),
           saved ++ [(i, st i)]) := by
        unfold wrapStep
        rw [Prod.ext_iff]
        exact ⟨rfl, mapSet_fresh saved i (st i) hfresh⟩
      rw [hstep]
      have hnotmem : i ∉ ids := by
        intro hc
        exact (List.nodup_cons.mp hnd).1 hc
      have hdisj2 : ∀ p ∈ saved ++ [(i, st i)], p.1 ∉ ids := by
        intro p hp
        rcases List.mem_append.mp hp with hp1 | hp2
        · exact fun hc => hdisj p hp1 (List.mem_cons_of_mem i hc)
        · have : p = (i, st i) := by simpa using hp2
          rw [this]
          exact hnotmem
      rw [ih (fun j => if j = i then Fn.wrap (st i) else st j)
            (saved ++ [(i, st i)]) hdisj2 (List.nodup_cons.mp hnd).2]
      rw [Prod.ext_iff]
      constructor
      · funext j
        by_cases hj : j ∈ ids
        · have hji : j ≠ i := fun hc => hnotmem (hc ▸ hj)
          simp [hj, hji, List.mem_cons]
        · by_cases hji : j = i
          · subst hji
            simp [hnotmem, List.mem_cons]
          · simp [hj, hji, List.mem_cons]
      · show saved ++ [(i, st i)] ++ ids.map (fun i2 => (i2, if i2 = i then Fn.wrap (st i) else st i2)) =
          saved ++ (i, st i) :: ids.map (fun i2 => (i2, st i2))
        rw [List.append_assoc]
        congr 1
        show (i, st i) :: ids.map (fun i2 => (i2, if i2 = i then Fn.wrap (st i) else st i2)) =
          (i, st i) :: ids.map (fun i2 => (i2, st i2))
        congr 1
        apply List.map_congr_left
        intro i2 hi2
        have : i2 ≠ i := fun hc => hnotmem (hc ▸ hi2)
        simp [this]

theorem restore_map (ids : List ℕ) :
    ∀ (stv st0 : ℕ → Fn), ids.Nodup → ∀ j,
    restorePhase (ids.map fun i => (i, stv i)) st0 j =
      if j ∈ ids then stv j else st0 j := by
  induction ids with
  | nil =>
      intro stv st0 _ j
      simp [restorePhase]
  | cons i ids ih =>
      intro stv st0 hnd j
      rw [List.map_cons]
      unfold restorePhase
      rw [List.foldl_cons]
      have hrec := ih stv (fun j2 => if j2 = i then stv i else st0 j2)
        (List.nodup_cons.mp hnd).2 j
      unfold restorePhase at hrec
      rw [hrec]
      by_cases hj : j ∈ ids
      · simp [hj, List.mem_cons]
      · by_cases hji : j = i
        · simp [hj, hji, List.mem_cons]
        · simp [hj, hji, List.mem_cons]

/-- Claim C10 (amended): provided the scales collection contains no
duplicated scale object (Object.values of an id-keyed scales map), every
scale's update method is restored after the wrapped layout update to
exactly the function it was before the call, so no wrapper functions
accumulate across repeated passes; with a duplicated scale object one
wrapper layer survives (see the counterexample). -/
theorem update_restore_exact_nodup (ids : List ℕ) (upd : ℕ → Fn)
    (hnd : ids.Nodup) : ∀ j, updateMethodsAfterPass ids upd j = upd j := by
  intro j
  unfold updateMethodsAfterPass wrapPhase
  rw [wrapAux_gen ids upd [] (by simp) hnd]
  simp only [List.nil_append]
  rw [restore_map ids upd (fun j2 => if j2 ∈ ids then Fn.wrap (upd j2) else upd j2)
        hnd j]
  by_cases hj : j ∈ ids
  · simp [hj]
  · simp [hj]

/-- Claim C10 is false as stated for a duplicated scale object: when the
same scale appears twice, the Map save of the second visit overwrites
the saved original with the once-wrapped function, so after restore the
scale's update is still wrapped once — not the function it was before
the call. -/
theorem update_restore_duplicate_cex :
    updateMethodsAfterPass [0, 0] (fun _ => Fn.base 7) 0 = Fn.wrap (Fn.base 7) ∧
    Fn.wrap (Fn.base 7) ≠ Fn.base 7 := by
  refine ⟨by decide, by decide⟩

/-- Witness for the amended C10 theorem on a two-scale chart without
duplicates. -/
theorem update_restore_exact_nodup_witness :
    updateMethodsAfterPass [0, 1] (fun n => Fn.base n) 0 = Fn.base 0 :=
  update_restore_exact_nodup [0, 1] (fun n => Fn.base n) (by decide) 0

/-! ## Claim C8 : the accumulation sub-pass -/

/-- The component of the accumulator that the accumulation loop keeps
for one side. -/
def padAt (acc : Pads) (p : Pos) : JVal :=
  match p with
  | .left => acc.l
  | .right => acc.r
  | .top => acc.t
  | .bottom => acc.b
  | .other => JVal.num 0

/-- The scalar step of the accumulation loop restricted to one side. -/
def sideStep (p : Pos) (a : JVal) (s : Scale) : JVal :=
  if displayed s && s.position == p
  then jMax a (jOr (sideDim s p) (JVal.num 0)) else a

theorem padAt_padStep (init : Pads) (s : Scale) (p : Pos) (hp : p ≠ Pos.other) :
    padAt (padStep init s) p = sideStep p (padAt init p) s := by
  unfold padStep sideStep
  by_cases hd : displayed s
  · cases hpos : s.position <;> cases p <;>
      first
        | exact absurd rfl hp
        | simp [hd, hpos, padAt, sideDim]
  · simp [hd]

theorem padAt_foldl (scales : List Scale) (p : Pos) (hp : p ≠ Pos.other) :
    ∀ init : Pads,
    padAt (scales.foldl padStep init) p =
      scales.foldl (sideStep p) (padAt init p) := by
  induction scales with
  | nil => intro init; rfl
  | cons s rest ih =>
      intro init
      rw [List.foldl_cons, List.foldl_cons, ih, padAt_padStep init s p hp]

theorem sideFold_const (p : Pos) :
    ∀ (scales : List Scale),
    (∀ s ∈ scales, (displayed s && s.position == p) = false) →
    ∀ a, scales.foldl (sideStep p) a = a := by
  intro scales
  induction scales with
  | nil => intro _ a; rfl
  | cons s rest ih =>
      intro h a
      rw [List.foldl_cons]
      have hs := h s (List.mem_cons_self _ _)
      have hstep : sideStep p a s = a := by
        unfold sideStep
        rw [if_neg]
        simp [hs]
      rw [hstep]
      exact ih (fun s2 hs2 => h s2 (List.mem_cons_of_mem _ hs2)) a

theorem sideFold_value (p : Pos) :
    ∀ (scales : List Scale),
    scales.countP (fun s => displayed s && s.position == p) ≤ 1 →
    (∀ s ∈ scales, (displayed s && s.position == p) = true →
        ∃ q : ℚ, 0 ≤ q ∧ sideDim s p = JVal.num q) →
    scales.foldl (sideStep p) (JVal.num 0) =
      JVal.num (specSideThickness scales p) := by
  intro scales
  induction scales with
  | nil => intro _ _; rfl
  | cons s rest ih =>
      intro hone hdims
      by_cases hm : (displayed s && s.position == p) = true
      · obtain ⟨q, hq0, hdim⟩ := hdims s (List.mem_cons_self _ _) hm
        have hstep : sideStep p (JVal.num 0) s = JVal.num q := by
          unfold sideStep
          rw [if_pos hm, hdim]
          by_cases hq : q = 0
          · subst hq
            rw [jOr_num_zero, jMax_num, max_self]
          · rw [jOr_num_of_ne q hq, jMax_num, max_eq_right hq0]
        have hcnt : rest.countP (fun s => displayed s && s.position == p) = 0 := by
          rw [List.countP_cons_of_pos (fun s => displayed s && s.position == p) rest hm] at hone
          omega
        have hnone : ∀ s2 ∈ rest, (displayed s2 && s2.position == p) = false := by
          intro s2 hs2
          have hnp := List.countP_eq_zero.mp hcnt s2 hs2
          revert hnp
          cases (displayed s2 && s2.position == p) <;> simp
        rw [List.foldl_cons, hstep, sideFold_const p rest hnone]
        have hm2 : (fun s => displayed s && s.position == p) s = true := hm
        have hfind : specSideThickness (s :: rest) p = numOr0 (sideDim s p) := by
          unfold specSideThickness
          rw [List.find?_cons_of_pos rest hm2]
        rw [hfind, hdim]
        rfl
      · have hm' : (displayed s && s.position == p) = false := by
          revert hm
          cases (displayed s && s.position == p) <;> simp
        have hstep : sideStep p (JVal.num 0) s = JVal.num 0 := by
          unfold sideStep
          rw [if_neg]
          simp [hm']
        have hone2 : rest.countP (fun s => displayed s && s.position == p) ≤ 1 := by
          rw [List.countP_cons_of_neg (fun s => displayed s && s.position == p) rest (by simp [hm'])] at hone
          exact hone
        have hm2 : ¬((fun s => displayed s && s.position == p) s = true) := by
          simp [hm']
        have hfind : specSideThickness (s :: rest) p = specSideThickness rest p := by
          unfold specSideThickness
          rw [List.find?_cons_of_neg rest hm2]
        rw [List.foldl_cons, hstep,
            ih hone2 (fun s2 hs2 => hdims s2 (List.mem_cons_of_mem _ hs2)), hfind]

/-- Claim C8 (confirmed): under the data-model assumptions (at most one
visible axis per side, each visible axis carrying a finite non-negative
thickness), the accumulation sub-pass computes region.left =
leftThickness, region.right = canvasWidth - rightThickness, region.top =
topThickness, region.bottom = canvasHeight - bottomThickness, and width
and height as the respective differences, where each side's thickness is
that of the (at most one) visible axis on that side or 0 if none; in
particular, when no axes are visible the region equals the full canvas
rectangle. -/
theorem accumulation_region_formula (W H : ℚ) (scales : List Scale)
    (hone : ∀ p : Pos,
       scales.countP (fun s => displayed s && s.position == p) ≤ 1)
    (hdims : ∀ s ∈ scales, displayed s = true →
       ∃ q : ℚ, 0 ≤ q ∧ sideDim s s.position = JVal.num q) :
    computeCA (JVal.num W) (JVal.num H) scales =
      { left := JVal.num (specSideThickness scales Pos.left),
        right := JVal.num (W - specSideThickness scales Pos.right),
        top := JVal.num (specSideThickness scales Pos.top),
        bottom := JVal.num (H - specSideThickness scales Pos.bottom),
        width := JVal.num (W - specSideThickness scales Pos.right -
                           specSideThickness scales Pos.left),
        height := JVal.num (H - specSideThickness scales Pos.bottom -
                            specSideThickness scales Pos.top) } ∧
    ((∀ s ∈ scales, displayed s = false) →
      computeCA (JVal.num W) (JVal.num H) scales =
        { left := JVal.num 0, right := JVal.num W, top := JVal.num 0,
          bottom := JVal.num H, width := JVal.num W, height := JVal.num H }) := by
  have hside : ∀ p : Pos, p ≠ Pos.other →
      padAt (accumPads scales) p = JVal.num (specSideThickness scales p) := by
    intro p hp
    unfold accumPads
    rw [padAt_foldl scales p hp]
    have hinit : padAt (⟨JVal.num 0, JVal.num 0, JVal.num 0, JVal.num 0⟩ : Pads) p =
        JVal.num 0 := by
      cases p <;> rfl
    rw [hinit]
    refine sideFold_value p scales (hone p) ?_
    intro s hs hm
    rw [Bool.and_eq_true] at hm
    obtain ⟨hd, hpos⟩ := hm
    have hpos2 : s.position = p := by simpa using hpos
    obtain ⟨q, hq0, hdim⟩ := hdims s hs hd
    exact ⟨q, hq0, by rw [← hpos2]; exact hdim⟩
  have hl : (accumPads scales).l = JVal.num (specSideThickness scales Pos.left) :=
    hside Pos.left (by decide)
  have hr : (accumPads scales).r = JVal.num (specSideThickness scales Pos.right) :=
    hside Pos.right (by decide)
  have ht : (accumPads scales).t = JVal.num (specSideThickness scales Pos.top) :=
    hside Pos.top (by decide)
  have hb : (accumPads scales).b = JVal.num (specSideThickness scales Pos.bottom) :=
    hside Pos.bottom (by decide)
  have hmain : computeCA (JVal.num W) (JVal.num H) scales =
      { left := JVal.num (specSideThickness scales Pos.left),
        right := JVal.num (W - specSideThickness scales Pos.right),
        top := JVal.num (specSideThickness scales Pos.top),
        bottom := JVal.num (H - specSideThickness scales Pos.bottom),
        width := JVal.num (W - specSideThickness scales Pos.right -
                           specSideThickness scales Pos.left),
        height := JVal.num (H - specSideThickness scales Pos.bottom -
                            specSideThickness scales Pos.top) } := by
    simp only [computeCA]
    rw [hl, hr, ht, hb]
    simp only [jSub_num]
  refine ⟨hmain, ?_⟩
  intro hnone
  have hspec : ∀ p : Pos, specSideThickness scales p = 0 := by
    intro p
    unfold specSideThickness
    rw [List.find?_eq_none.mpr]
    intro s hs
    simp [hnone s hs]
  rw [hmain]
  simp [hspec]

/-- The two-axis scale list for the C8 witness. -/
def c8scales : List Scale :=
  [mkScale Pos.left false (JVal.num 30) (JVal.num 0),
   mkScale Pos.bottom true (JVal.num 0) (JVal.num 20)]

/-- Witness for C8 at a concrete chart: a left axis of thickness 30 and
a bottom axis of thickness 20 on an 800 by 400 canvas. -/
theorem accumulation_region_formula_witness :
    computeCA (JVal.num 800) (JVal.num 400) c8scales =
      { left := JVal.num (specSideThickness c8scales Pos.left),
        right := JVal.num (800 - specSideThickness c8scales Pos.right),
        top := JVal.num (specSideThickness c8scales Pos.top),
        bottom := JVal.num (400 - specSideThickness c8scales Pos.bottom),
        width := JVal.num (800 - specSideThickness c8scales Pos.right -
                           specSideThickness c8scales Pos.left),
        height := JVal.num (400 - specSideThickness c8scales Pos.bottom -
                            specSideThickness c8scales Pos.top) } :=
  (accumulation_region_formula 800 400 c8scales
     (by intro p; cases p <;> decide)
     (by
       intro s hs hd
       rcases List.mem_cons.mp hs with h1 | h2
       · exact ⟨30, by norm_num, by rw [h1]; rfl⟩
       · have h3 : s = mkScale Pos.bottom true (JVal.num 0) (JVal.num 20) := by
           simpa using h2
         exact ⟨20, by norm_num, by rw [h3]; rfl⟩)).1

/-! ## Claim C7 : tiling of the canvas by axis boxes and region -/

theorem displayed_mkScale (p : Pos) (b : Bool) (w h : JVal) :
    displayed (mkScale p b w h) = true := by
  norm_num [displayed, mkScale, truthy]

theorem scaleBoxMem_num (s : Scale) (l r t b : ℚ)
    (hL : s.left = JVal.num l) (hR : s.right = JVal.num r)
    (hT : s.top = JVal.num t) (hB : s.bottom = JVal.num b) :
    ∀ u v : ℚ, scaleBoxMem s u v ↔ (l ≤ u ∧ u < r ∧ t ≤ v ∧ v < b) := by
  intro u v
  constructor
  · rintro ⟨l2, r2, t2, b2, h1, h2, h3, h4, m1, m2, m3, m4⟩
    obtain rfl : l2 = l := (JVal.num.inj (hL.symm.trans h1)).symm
    obtain rfl : r2 = r := (JVal.num.inj (hR.symm.trans h2)).symm
    obtain rfl : t2 = t := (JVal.num.inj (hT.symm.trans h3)).symm
    obtain rfl : b2 = b := (JVal.num.inj (hB.symm.trans h4)).symm
    exact ⟨m1, m2, m3, m4⟩
  · intro h
    exact ⟨l, r, t, b, hL, hR, hT, hB, h.1, h.2.1, h.2.2.1, h.2.2.2⟩

theorem regionMem_num (reg : Region) (l r t b : ℚ)
    (hL : reg.left = JVal.num l) (hR : reg.right = JVal.num r)
    (hT : reg.top = JVal.num t) (hB : reg.bottom = JVal.num b) :
    ∀ u v : ℚ, regionMem reg u v ↔ (l ≤ u ∧ u < r ∧ t ≤ v ∧ v < b) := by
  intro u v
  constructor
  · rintro ⟨l2, r2, t2, b2, h1, h2, h3, h4, m1, m2, m3, m4⟩
    obtain rfl : l2 = l := (JVal.num.inj (hL.symm.trans h1)).symm
    obtain rfl : r2 = r := (JVal.num.inj (hR.symm.trans h2)).symm
    obtain rfl : t2 = t := (JVal.num.inj (hT.symm.trans h3)).symm
    obtain rfl : b2 = b := (JVal.num.inj (hB.symm.trans h4)).symm
    exact ⟨m1, m2, m3, m4⟩
  · intro h
    exact ⟨l, r, t, b, hL, hR, hT, hB, h.1, h.2.1, h.2.2.1, h.2.2.2⟩

/-- The four-axis scale list used to analyse the placement pass: one
displayed axis per side with the given thicknesses. -/
def c7scalesOf (pl pr pt pb : ℚ) : List Scale :=
  [mkScale Pos.left false (JVal.num pl) (JVal.num 0),
   mkScale Pos.right false (JVal.num pr) (JVal.num 0),
   mkScale Pos.top true (JVal.num 0) (JVal.num pt),
   mkScale Pos.bottom true (JVal.num 0) (JVal.num pb)]

/-- The chart area the wrapper computes for that scale list. -/
def c7ca (W H pl pr pt pb : ℚ) : Region :=
  computeCA (JVal.num W) (JVal.num H) (c7scalesOf pl pr pt pb)

/-- The placed left-axis box. -/
def c7boxL (W H pl pr pt pb : ℚ) : Scale :=
  placeScale (JVal.num W) (JVal.num H) (c7ca W H pl pr pt pb)
    (mkScale Pos.left false (JVal.num pl) (JVal.num 0))

/-- The placed right-axis box. -/
def c7boxR (W H pl pr pt pb : ℚ) : Scale :=
  placeScale (JVal.num W) (JVal.num H) (c7ca W H pl pr pt pb)
    (mkScale Pos.right false (JVal.num pr) (JVal.num 0))

/-- The placed top-axis box. -/
def c7boxT (W H pl pr pt pb : ℚ) : Scale :=
  placeScale (JVal.num W) (JVal.num H) (c7ca W H pl pr pt pb)
    (mkScale Pos.top true (JVal.num 0) (JVal.num pt))

/-- The placed bottom-axis box. -/
def c7boxB (W H pl pr pt pb : ℚ) : Scale :=
  placeScale (JVal.num W) (JVal.num H) (c7ca W H pl pr pt pb)
    (mkScale Pos.bottom true (JVal.num 0) (JVal.num pb))

theorem c7ca_eq (W H pl pr pt pb : ℚ)
    (hpl : 0 ≤ pl) (hpr : 0 ≤ pr) (hpt : 0 ≤ pt) (hpb : 0 ≤ pb) :
    c7ca W H pl pr pt pb =
      ⟨JVal.num pl, JVal.num (W - pr), JVal.num pt, JVal.num (H - pb),
       JVal.num (W - pr - pl), JVal.num (H - pb - pt)⟩ := by
  have hpads : accumPads (c7scalesOf pl pr pt pb) =
      ⟨JVal.num (max 0 pl), JVal.num (max 0 pr),
       JVal.num (max 0 pt), JVal.num (max 0 pb)⟩ := by
    norm_num [accumPads, c7scalesOf, padStep, displayed, mkScale, truthy,
      jOr_num_zero, jMax_num]
  have hpads2 : accumPads (c7scalesOf pl pr pt pb) =
      ⟨JVal.num pl, JVal.num pr, JVal.num pt, JVal.num pb⟩ := by
    rw [hpads, max_eq_right hpl, max_eq_right hpr, max_eq_right hpt,
        max_eq_right hpb]
  unfold c7ca
  simp only [computeCA]
  rw [hpads2]
  simp only [jSub_num]

/-- Claim C7 is false as stated: on a 100 by 100 canvas with all four
axis thicknesses 10, the canvas point (5, 5) — inside the canvas, in the
top-left corner rectangle — lies in none of the four placed axis boxes
nor in the plotting region, so the boxes plus region do not partition
the canvas without gaps. -/
theorem tiling_corner_gap_cex :
    ((0 : ℚ) ≤ 5 ∧ (5 : ℚ) < 100) ∧
    ¬ scaleBoxMem (c7boxL 100 100 10 10 10 10) 5 5 ∧
    ¬ scaleBoxMem (c7boxR 100 100 10 10 10 10) 5 5 ∧
    ¬ scaleBoxMem (c7boxT 100 100 10 10 10 10) 5 5 ∧
    ¬ scaleBoxMem (c7boxB 100 100 10 10 10 10) 5 5 ∧
    ¬ regionMem (c7ca 100 100 10 10 10 10) 5 5 := by
  have hca := c7ca_eq 100 100 10 10 10 10 (by norm_num) (by norm_num)
    (by norm_num) (by norm_num)
  have hmL := scaleBoxMem_num (c7boxL 100 100 10 10 10 10) 0 10 10 (100 - 10)
    (by unfold c7boxL; rw [hca]; rfl) (by unfold c7boxL; rw [hca]; rfl)
    (by unfold c7boxL; rw [hca]; rfl) (by unfold c7boxL; rw [hca]; rfl)
  have hmR := scaleBoxMem_num (c7boxR 100 100 10 10 10 10) (100 - 10) 100 10
      (100 - 10)
    (by unfold c7boxR; rw [hca]; rfl) (by unfold c7boxR; rw [hca]; rfl)
    (by unfold c7boxR; rw [hca]; rfl) (by unfold c7boxR; rw [hca]; rfl)
  have hmT := scaleBoxMem_num (c7boxT 100 100 10 10 10 10) 10 (100 - 10) 0 10
    (by unfold c7boxT; rw [hca]; rfl) (by unfold c7boxT; rw [hca]; rfl)
    (by unfold c7boxT; rw [hca]; rfl) (by unfold c7boxT; rw [hca]; rfl)
  have hmB := scaleBoxMem_num (c7boxB 100 100 10 10 10 10) 10 (100 - 10)
      (100 - 10) 100
    (by unfold c7boxB; rw [hca]; rfl) (by unfold c7boxB; rw [hca]; rfl)
    (by unfold c7boxB; rw [hca]; rfl) (by unfold c7boxB; rw [hca]; rfl)
  have hmCA := regionMem_num (c7ca 100 100 10 10 10 10) 10 (100 - 10) 10
      (100 - 10)
    (by rw [hca]) (by rw [hca]) (by rw [hca]) (by rw [hca])
  refine ⟨⟨by norm_num, by norm_num⟩, ?_, ?_, ?_, ?_, ?_⟩
  · rw [hmL 5 5]; norm_num
  · rw [hmR 5 5]; norm_num
  · rw [hmT 5 5]; norm_num
  · rw [hmB 5 5]; norm_num
  · rw [hmCA 5 5]; norm_num

/-- Claim C7 (amended): for a valid non-degenerate layout the four
placed axis boxes and the plotting region have pairwise disjoint
interiors, and together they cover exactly the canvas minus the four
corner rectangles: a canvas point is covered if and only if it does NOT
lie in a corner (horizontally inside a vertical band and vertically
inside a horizontal band at the same time); the claimed gap-free
partition of the whole canvas fails exactly at those corners. -/
theorem boxes_tile_canvas_minus_corners
    (W H pl pr pt pb x y : ℚ)
    (hpl : 0 ≤ pl) (hpr : 0 ≤ pr) (hpt : 0 ≤ pt) (hpb : 0 ≤ pb)
    (hWp : pl + pr < W) (hHp : pt + pb < H)
    (hx0 : 0 ≤ x) (hxW : x < W) (hy0 : 0 ≤ y) (hyH : y < H) :
    ((scaleBoxMem (c7boxL W H pl pr pt pb) x y ∨
      scaleBoxMem (c7boxR W H pl pr pt pb) x y ∨
      scaleBoxMem (c7boxT W H pl pr pt pb) x y ∨
      scaleBoxMem (c7boxB W H pl pr pt pb) x y ∨
      regionMem (c7ca W H pl pr pt pb) x y) ↔
     ¬((x < pl ∨ W - pr ≤ x) ∧ (y < pt ∨ H - pb ≤ y))) ∧
    ¬(scaleBoxMem (c7boxL W H pl pr pt pb) x y ∧
      scaleBoxMem (c7boxR W H pl pr pt pb) x y) ∧
    ¬(scaleBoxMem (c7boxL W H pl pr pt pb) x y ∧
      scaleBoxMem (c7boxT W H pl pr pt pb) x y) ∧
    ¬(scaleBoxMem (c7boxL W H pl pr pt pb) x y ∧
      scaleBoxMem (c7boxB W H pl pr pt pb) x y) ∧
    ¬(scaleBoxMem (c7boxL W H pl pr pt pb) x y ∧
      regionMem (c7ca W H pl pr pt pb) x y) ∧
    ¬(scaleBoxMem (c7boxR W H pl pr pt pb) x y ∧
      scaleBoxMem (c7boxT W H pl pr pt pb) x y) ∧
    ¬(scaleBoxMem (c7boxR W H pl pr pt pb) x y ∧
      scaleBoxMem (c7boxB W H pl pr pt pb) x y) ∧
    ¬(scaleBoxMem (c7boxR W H pl pr pt pb) x y ∧
      regionMem (c7ca W H pl pr pt pb) x y) ∧
    ¬(scaleBoxMem (c7boxT W H pl pr pt pb) x y ∧
      scaleBoxMem (c7boxB W H pl pr pt pb) x y) ∧
    ¬(scaleBoxMem (c7boxT W H pl pr pt pb) x y ∧
      regionMem (c7ca W H pl pr pt pb) x y) ∧
    ¬(scaleBoxMem (c7boxB W H pl pr pt pb) x y ∧
      regionMem (c7ca W H pl pr pt pb) x y) := by
  have hca := c7ca_eq W H pl pr pt pb hpl hpr hpt hpb
  have hmL := scaleBoxMem_num (c7boxL W H pl pr pt pb) 0 pl pt (H - pb)
    (by unfold c7boxL; rw [hca]; rfl) (by unfold c7boxL; rw [hca]; rfl)
    (by unfold c7boxL; rw [hca]; rfl) (by unfold c7boxL; rw [hca]; rfl)
  have hmR := scaleBoxMem_num (c7boxR W H pl pr pt pb) (W - pr) W pt (H - pb)
    (by unfold c7boxR; rw [hca]; rfl) (by unfold c7boxR; rw [hca]; rfl)
    (by unfold c7boxR; rw [hca]; rfl) (by unfold c7boxR; rw [hca]; rfl)
  have hmT := scaleBoxMem_num (c7boxT W H pl pr pt pb) pl (W - pr) 0 pt
    (by unfold c7boxT; rw [hca]; rfl) (by unfold c7boxT; rw [hca]; rfl)
    (by unfold c7boxT; rw [hca]; rfl) (by unfold c7boxT; rw [hca]; rfl)
  have hmB := scaleBoxMem_num (c7boxB W H pl pr pt pb) pl (W - pr) (H - pb) H
    (by unfold c7boxB; rw [hca]; rfl) (by unfold c7boxB; rw [hca]; rfl)
    (by unfold c7boxB; rw [hca]; rfl) (by unfold c7boxB; rw [hca]; rfl)
  have hmCA := regionMem_num (c7ca W H pl pr pt pb) pl (W - pr) pt (H - pb)
    (by rw [hca]) (by rw [hca]) (by rw [hca]) (by rw [hca])
  rw [hmL x y, hmR x y, hmT x y, hmB x y, hmCA x y]
  constructor
  · constructor
    · rintro (⟨h1, h2, h3, h4⟩ | ⟨h1, h2, h3, h4⟩ | ⟨h1, h2, h3, h4⟩ |
              ⟨h1, h2, h3, h4⟩ | ⟨h1, h2, h3, h4⟩) ⟨hcx, hcy⟩
      · rcases hcy with hc | hc <;> linarith
      · rcases hcy with hc | hc <;> linarith
      · rcases hcx with hc | hc <;> linarith
      · rcases hcx with hc | hc <;> linarith
      · rcases hcx with hc | hc <;> linarith
    · intro hcor
      by_cases hx1 : x < pl
      · have hy2 : ¬(y < pt ∨ H - pb ≤ y) := fun hy => hcor ⟨Or.inl hx1, hy⟩
        push_neg at hy2
        exact Or.inl ⟨hx0, hx1, hy2.1, hy2.2⟩
      · by_cases hx2 : W - pr ≤ x
        · have hy2 : ¬(y < pt ∨ H - pb ≤ y) := fun hy => hcor ⟨Or.inr hx2, hy⟩
          push_neg at hy2
          exact Or.inr (Or.inl ⟨hx2, hxW, hy2.1, hy2.2⟩)
        · have hx1a : pl ≤ x := le_of_not_lt hx1
          have hx2a : x < W - pr := lt_of_not_le hx2
          by_cases hy1 : y < pt
          · exact Or.inr (Or.inr (Or.inl ⟨hx1a, hx2a, hy0, hy1⟩))
          · by_cases hy2 : H - pb ≤ y
            · exact Or.inr (Or.inr (Or.inr (Or.inl ⟨hx1a, hx2a, hy2, hyH⟩)))
            · exact Or.inr (Or.inr (Or.inr (Or.inr
                ⟨hx1a, hx2a, le_of_not_lt hy1, lt_of_not_le hy2⟩)))
  · refine ⟨?_, ?_, ?_, ?_, ?_, ?_, ?_, ?_, ?_, ?_⟩ <;>
      (rintro ⟨⟨a1, a2, a3, a4⟩, ⟨b1, b2, b3, b4⟩⟩; linarith)

/-- Witness for the amended C7 theorem at a concrete layout (100 by 100
canvas, all four thicknesses 10) and the concrete canvas point (5, 50),
which lies in the left axis box. -/
theorem boxes_tile_canvas_minus_corners_witness :
    ((scaleBoxMem (c7boxL 100 100 10 10 10 10) 5 50 ∨
      scaleBoxMem (c7boxR 100 100 10 10 10 10) 5 50 ∨
      scaleBoxMem (c7boxT 100 100 10 10 10 10) 5 50 ∨
      scaleBoxMem (c7boxB 100 100 10 10 10 10) 5 50 ∨
      regionMem (c7ca 100 100 10 10 10 10) 5 50) ↔
     ¬(((5 : ℚ) < 10 ∨ (100 : ℚ) - 10 ≤ 5) ∧
       ((50 : ℚ) < 10 ∨ (100 : ℚ) - 10 ≤ 50))) ∧
    ¬(scaleBoxMem (c7boxL 100 100 10 10 10 10) 5 50 ∧
      scaleBoxMem (c7boxR 100 100 10 10 10 10) 5 50) ∧
    ¬(scaleBoxMem (c7boxL 100 100 10 10 10 10) 5 50 ∧
      scaleBoxMem (c7boxT 100 100 10 10 10 10) 5 50) ∧
    ¬(scaleBoxMem (c7boxL 100 100 10 10 10 10) 5 50 ∧
      scaleBoxMem (c7boxB 100 100 10 10 10 10) 5 50) ∧
    ¬(scaleBoxMem (c7boxL 100 100 10 10 10 10) 5 50 ∧
      regionMem (c7ca 100 100 10 10 10 10) 5 50) ∧
    ¬(scaleBoxMem (c7boxR 100 100 10 10 10 10) 5 50 ∧
      scaleBoxMem (c7boxT 100 100 10 10 10 10) 5 50) ∧
    ¬(scaleBoxMem (c7boxR 100 100 10 10 10 10) 5 50 ∧
      scaleBoxMem (c7boxB 100 100 10 10 10 10) 5 50) ∧
    ¬(scaleBoxMem (c7boxR 100 100 10 10 10 10) 5 50 ∧
      regionMem (c7ca 100 100 10 10 10 10) 5 50) ∧
    ¬(scaleBoxMem (c7boxT 100 100 10 10 10 10) 5 50 ∧
      scaleBoxMem (c7boxB 100 100 10 10 10 10) 5 50) ∧
    ¬(scaleBoxMem (c7boxT 100 100 10 10 10 10) 5 50 ∧
      regionMem (c7ca 100 100 10 10 10 10) 5 50) ∧
    ¬(scaleBoxMem (c7boxB 100 100 10 10 10 10) 5 50 ∧
      regionMem (c7ca 100 100 10 10 10 10) 5 50) :=
  boxes_tile_canvas_minus_corners 100 100 10 10 10 10 5 50
    (by norm_num) (by norm_num) (by norm_num) (by norm_num)
    (by norm_num) (by norm_num) (by norm_num) (by norm_num)
    (by norm_num) (by norm_num)
